import Mathlib

/-!
# Verification of `charity-django` import commands

A shallow embedding, in Lean 4, of the parts of the `charity-django`
repository that its specification talks about:

* `companies/management/commands/import_companies.py` — the company
  register import pipeline (`Command.handle`, `fetch_file`, `parse_row`,
  `clean_fields`, `add_record`, the stale-record cleanup);
* `utils/management/commands/logcommand.py` — the `CommandLogHandler`
  and the `logcommand` wrapper;
* the postcode-import fixture test (`test_import_chd.py`).

Python strings are modelled as Lean `String`s; the handful of Python
string methods the code uses (`strip`, `replace`, `split`,
`startswith`) are re-implemented structurally over `String.data` so
that every definition evaluates inside the kernel.  Machine-level
concerns (actual HTTP, the real database engine) are modelled as
explicit state: the database is a value threaded through the run, and
network fetches are a function argument that may return an error.
Fallible Python code (code that can raise) is embedded as functions
into `Except String _`.
-/

/-! ## Python string primitives

Structural models of the Python `str` methods used by the source.
`str.strip()` removes ASCII whitespace from both ends; `str.replace`
replaces every non-overlapping occurrence left to right;
`str.split(sep)` splits on every occurrence; `str.split(sep, maxsplit=1)`
splits at the first occurrence only; `str.startswith` tests a prefix.
-/

set_option maxRecDepth 10000

deriving instance DecidableEq for Except

/-- Whitespace characters removed by Python `str.strip()` (ASCII subset). -/
def pyIsSpace (c : Char) : Bool :=
  c = ' ' || c = '\t' || c = '\n' || c = '\r' || c = '\x0b' || c = '\x0c'

/-- Drop leading whitespace from a character list. -/
def dropSpaceLeft : List Char → List Char
  | [] => []
  | c :: cs => if pyIsSpace c then dropSpaceLeft cs else c :: cs

/-- Python `s.strip()`. -/
def pyStrip (s : String) : String :=
  ⟨(dropSpaceLeft (dropSpaceLeft s.data.reverse).reverse)⟩

/-- One fuel-indexed step list for `pyReplace`; the fuel is an upper
bound on the number of characters consumed, so passing the length of
the list gives Python semantics (non-overlapping, left to right). -/
def replaceAux (pat rep : List Char) : Nat → List Char → List Char
  | 0, l => l
  | _ + 1, [] => []
  | fuel + 1, c :: cs =>
    if pat ≠ [] && pat.isPrefixOf (c :: cs) then
      rep ++ replaceAux pat rep fuel ((c :: cs).drop pat.length)
    else
      c :: replaceAux pat rep fuel cs

/-- Python `s.replace(pat, rep)` (for non-empty `pat`). -/
def pyReplace (s pat rep : String) : String :=
  ⟨replaceAux pat.data rep.data s.data.length s.data⟩

/-- Fuel-indexed worker for `pySplit`. -/
def splitAux (sep : List Char) : Nat → List Char → List Char → List (List Char)
  | 0, acc, rest => [acc.reverse ++ rest]
  | _ + 1, acc, [] => [acc.reverse]
  | fuel + 1, acc, c :: cs =>
    if sep ≠ [] && sep.isPrefixOf (c :: cs) then
      acc.reverse :: splitAux sep fuel [] ((c :: cs).drop sep.length)
    else
      splitAux sep fuel (c :: acc) cs

/-- Python `s.split(sep)` (for non-empty `sep`). -/
def pySplit (s sep : String) : List String :=
  (splitAux sep.data s.data.length [] s.data).map (fun l => ⟨l⟩)

/-- Worker for `pySplitOnce`: splits at the first occurrence of `sep`. -/
def splitOnceAux (sep : List Char) : List Char → List Char → List (List Char)
  | acc, [] => [acc.reverse]
  | acc, c :: cs =>
    if sep ≠ [] && sep.isPrefixOf (c :: cs) then
      [acc.reverse, (c :: cs).drop sep.length]
    else
      splitOnceAux sep (c :: acc) cs

/-- Python `s.split(sep, maxsplit=1)` (for non-empty `sep`). -/
def pySplitOnce (s sep : String) : List String :=
  (splitOnceAux sep.data [] s.data).map (fun l => ⟨l⟩)

/-- Does `s` contain `sub` as a contiguous substring? -/
def containsSub (sub : List Char) : List Char → Bool
  | [] => sub.isPrefixOf []
  | c :: cs => sub.isPrefixOf (c :: cs) || containsSub sub cs

/-- Python `sub in s`. -/
def pyContains (s sub : String) : Bool :=
  containsSub sub.data s.data

/-- Python `s.startswith(pre)`. -/
def pyStartsWith (s pre : String) : Bool :=
  pre.data.isPrefixOf s.data

example : pyStrip "  ab " = "ab" := by decide
example : pyReplace "None SuppliedNone Supplied" "None Supplied" "" = "" := by decide
example : pySplit "PreviousName_1_CONDATE" "_" = ["PreviousName", "1", "CONDATE"] := by
  decide
example : pySplitOnce "62020 - Information technology - consultancy" " - " =
    ["62020", "Information technology - consultancy"] := by decide
example : pySplitOnce "62020" " - " = ["62020"] := by decide
example : pyContains "ab - cd" " - " = true := by decide
example : pyStartsWith "SICCode_SicText_1" "SICCode_" = true := by decide

/-! ## Field values

A cleaned CSV field holds either Python `None`, a string, or a
`datetime.date`-like value (modelled as day/month/year naturals).
Python truthiness for these values: `None` and `""` are falsy.
-/

/-- A date as day/month/year. -/
structure PyDate where
  day : Nat
  month : Nat
  year : Nat
deriving DecidableEq

/-- A cleaned field value: Python `None`, `str` or `datetime`. -/
inductive Value where
  | null
  | str (s : String)
  | date (d : PyDate)
deriving DecidableEq

/-- Python truthiness of a `Value` (`None` and `""` are falsy). -/
def Value.truthy : Value → Bool
  | .null => false
  | .str s => s ≠ ""
  | .date _ => true

/-! ## Date parsing: `datetime.datetime.strptime(s, "%d/%m/%Y")`

The import command parses every date with the fixed format
`%d/%m/%Y`.  `strptime` raises `ValueError` when the string does not
match the format or the calendar date is invalid; the model returns
`none` in exactly those situations.
-/

/-- Interpret a non-empty all-digit character list as a natural number. -/
def digitsToNat (l : List Char) : Option Nat :=
  if l ≠ [] && l.all Char.isDigit then
    some (l.foldl (fun n c => n * 10 + (c.toNat - 48)) 0)
  else
    none

/-- Gregorian leap-year test. -/
def isLeapYear (y : Nat) : Bool :=
  (y % 4 = 0 && y % 100 ≠ 0) || y % 400 = 0

/-- Number of days in a month. -/
def daysInMonth (m y : Nat) : Nat :=
  if m = 2 then (if isLeapYear y then 29 else 28)
  else if m = 4 || m = 6 || m = 9 || m = 11 then 30
  else 31

/-- Model of `datetime.datetime.strptime(s, "%d/%m/%Y")` (the only
format string used by `import_companies`): `none` exactly when Python
raises `ValueError`.  `%d` and `%m` accept one or two digits, `%Y`
exactly four (CPython's `TimeRE` pattern for `%Y` is four digits); the
year must be at least `datetime.MINYEAR = 1` and the calendar date
must exist. -/
def strptimeDMY (s : String) : Option PyDate :=
  match pySplit s "/" with
  | [ds, ms, ys] =>
    match digitsToNat ds.data, digitsToNat ms.data, digitsToNat ys.data with
    | some d, some m, some y =>
      if ds.length ≤ 2 && ms.length ≤ 2 && ys.length = 4 && 1 ≤ y
          && 1 ≤ m && m ≤ 12 && 1 ≤ d && d ≤ daysInMonth m y then
        some ⟨d, m, y⟩
      else
        none
    | _, _, _ => none
  | _ => none

example : strptimeDMY "29/02/2020" = some ⟨29, 2, 2020⟩ := by decide
example : strptimeDMY "29/02/2021" = none := by decide
example : strptimeDMY "garbage" = none := by decide
example : strptimeDMY "" = none := by decide
example : strptimeDMY "01/02/203" = none := by decide
example : strptimeDMY "01/02/0000" = none := by decide

/-! ## Association-list operations

Python `dict`s with string keys, in insertion order: lookup is
`row.get(k)`, assignment `row[k] = v` replaces the value of an
existing key in place or appends a new key at the end.
-/

/-- Python `row.get(f)`. -/
def getField {α : Type} (row : List (String × α)) (f : String) : Option α :=
  (row.find? (fun r => r.1 = f)).map (fun r => r.2)

/-- Python `row[f] = v`: replace in place, or append a new key. -/
def setField {α : Type} (row : List (String × α)) (f : String) (v : α) :
    List (String × α) :=
  if row.any (fun r => r.1 = f) then
    row.map (fun r => if r.1 = f then (f, v) else r)
  else
    row ++ [(f, v)]

/-! ## `Command.clean_fields`

`import_companies.Command` declares eight `date_fields`, a scalar
`date_format` `"%d/%m/%Y"` and no `bool_fields`.  For each field:
an empty string becomes `None`; a date-field string is parsed with
`strptime`, a `ValueError` being swallowed by setting the field to
`None`; every other string is stripped and has NUL characters removed.
-/

/-- `Command.date_fields` of `import_companies`. -/
def date_fields : List String :=
  ["DissolutionDate", "IncorporationDate", "Accounts_NextDueDate",
   "Accounts_LastMadeUpDate", "Returns_NextDueDate", "Returns_LastMadeUpDate",
   "ConfStmtNextDueDate", "ConfStmtLastMadeUpDate"]

/-- The body of `Command.clean_fields` for one field.  `bool_fields`
is absent on this command, so the boolean branch never fires. -/
def cleanField (f : String) (v : String) : Value :=
  if v = "" then .null
  else if date_fields.contains f then
    match strptimeDMY (pyStrip v) with
    | some d => .date d
    | none => .null
  else .str (pyReplace (pyStrip v) "\x00" "")

/-- `Command.clean_fields`: clean every field of the record in place. -/
def clean_fields (row : List (String × String)) : List (String × Value) :=
  row.map (fun kv => (kv.1, cleanField kv.1 kv.2))

example : cleanField "DissolutionDate" "31/12/2020" = .date ⟨31, 12, 2020⟩ := by decide
example : cleanField "DissolutionDate" "not a date" = .null := by decide
example : cleanField "CompanyName" " ACME LTD " = .str "ACME LTD" := by decide
example : cleanField "CompanyName" "" = .null := by decide

/-! ## `Command.clean_categories` -/

/-- The three fields remapped by `clean_categories`. -/
def categoryFields : List String :=
  ["CompanyCategory", "CompanyStatus", "Accounts_AccountCategory"]

/-- `Command.clean_categories`.  Modelled from the spec: the lookup
tables (`COMPANY_CATEGORY_LOOKUP`, `COMPANY_STATUS_LOOKUP`,
`ACCOUNTS_TYPE_LOOKUP` from `ch_api.py`, which is not under `src/`)
are passed as the `lookup` argument; per the source, each category
field is set to `lookup.get(row.get(field), row.get(field))`, which
never raises, and a dict assignment adds the key when absent. -/
def clean_categories (lookup : String → Option Value → Value)
    (row : List (String × Value)) : List (String × Value) :=
  categoryFields.foldl (fun r f => setField r f (lookup f (getField r f))) row

/-- A concrete `lookup` instance for empty lookup tables:
`dict.get(x, x)` returns `x` itself (and `None` for a missing field). -/
def idLookup : String → Option Value → Value :=
  fun _ v => v.getD .null

/-! ## `Command.parse_row`

`parse_row` normalizes the keys (strip, `.` replaced by `_`), cleans
the fields, remaps the category fields, then walks the row in order:

* keys starting with `PreviousName_` are grouped by their number;
  `CONDATE` sub-fields are parsed with `strptime("%d/%m/%Y")` with
  **no** exception handling, so a malformed value raises and fails the
  row;
* keys starting with `SICCode_` are skipped when the value is falsy or
  collapses to the empty string after removing every occurrence of
  `"None Supplied"`; otherwise the value is split on `" - "`
  (`maxsplit=1`) and destructured into a code and a title, raising
  `ValueError` when the separator is absent.  New codes are upserted
  into the `SICCode` table and memoized in `sic_code_cache`; the model
  keeps the cache (`code ↦ title` pairs) and the per-row list of SIC
  codes and drops the `SICCode` table itself (it carries no
  `in_latest_update` flag and no claim mentions it);
* every other key lands in the company record.

Afterwards a `Company` object is built from the record (with
`in_latest_update=True`) and the previous-name groups are turned into
`PreviousName` records, reading `n["CompanyName"]` and `n["CONDATE"]`
(a `KeyError` when a group lacks either).
-/

/-- Mutable state of the key loop of `parse_row`. -/
structure LoopState where
  prevGroups : List (String × List (String × Value))
  sic_codes : List (String × String)
  record : List (String × Value)
  cache : List (String × String)
deriving DecidableEq

/-- One iteration of the key loop of `parse_row` (one `k` of `row`),
returning `.error` exactly when the Python body raises. -/
def parse_key (st : LoopState) (k : String) (v : Value) : Except String LoopState :=
  if pyStartsWith k "PreviousName_" then
    if v.truthy then
      match pySplit k "_" with
      | _ :: idx :: sub :: _ =>
        let grp := (getField st.prevGroups idx).getD []
        if sub = "CONDATE" then
          match v with
          | .str s =>
            match strptimeDMY s with
            | some d =>
              let grp := setField grp "CONDATE" (.date d)
              let grp := setField grp "nameno" (.str idx)
              .ok { st with prevGroups := setField st.prevGroups idx grp }
            | none => .error "ValueError: time data does not match format %d/%m/%Y"
          | _ => .error "TypeError: strptime argument must be str"
        else
          .ok { st with prevGroups := setField st.prevGroups idx (setField grp sub v) }
      | _ => .error "IndexError: list index out of range"
    else
      .ok st
  else if pyStartsWith k "SICCode_" then
    match v with
    | .null => .ok st
    | .str s =>
      if s ≠ "" && pyReplace s "None Supplied" "" ≠ "" then
        match pySplitOnce s " - " with
        | [c, t] =>
          let code := pyStrip c
          let title := pyStrip t
          match getField st.cache code with
          | some cachedTitle =>
            .ok { st with sic_codes := st.sic_codes ++ [(code, cachedTitle)] }
          | none =>
            .ok { st with
                  cache := setField st.cache code title,
                  sic_codes := st.sic_codes ++ [(code, title)] }
        | _ => .error "ValueError: not enough values to unpack"
      else
        .ok st
    | .date _ => .error "AttributeError: datetime has no attribute replace"
  else
    .ok { st with record := setField st.record k v }

/-- The key loop of `parse_row`, stopping at the first raise. -/
def parse_fields : LoopState → List (String × Value) → Except String LoopState
  | st, [] => .ok st
  | st, (k, v) :: rest =>
    match parse_key st k v with
    | .ok st' => parse_fields st' rest
    | .error e => .error e

/-- A `PreviousName` record as built by `parse_row` (the `company`
foreign key is implicit: it is the row's company). -/
structure PrevNameRec where
  companyName : Value
  conDate : Value
  in_latest_update : Bool
deriving DecidableEq

/-- Build one `PreviousName` record from a group dict, reading
`n["CompanyName"]` and `n["CONDATE"]` (`KeyError` when absent). -/
def buildPrevName (grp : List (String × Value)) : Except String PrevNameRec :=
  match getField grp "CompanyName" with
  | none => .error "KeyError: CompanyName"
  | some nm =>
    match getField grp "CONDATE" with
    | none => .error "KeyError: CONDATE"
    | some cd => .ok { companyName := nm, conDate := cd, in_latest_update := true }

/-- Build every `PreviousName` record, in group insertion order. -/
def buildPrevNames : List (List (String × Value)) → Except String (List PrevNameRec)
  | [] => .ok []
  | g :: gs =>
    match buildPrevName g with
    | .error e => .error e
    | .ok n =>
      match buildPrevNames gs with
      | .error e => .error e
      | .ok ns => .ok (n :: ns)

/-- The result of parsing one CSV row: the `Company` object (its
fields, with `in_latest_update=True`), its `PreviousName` records and
its SIC codes. -/
structure ParsedRow where
  company : List (String × Value)
  in_latest_update : Bool
  previous_names : List PrevNameRec
  sic_codes : List (String × String)
deriving DecidableEq

/-- The dict comprehension
`{k.strip().replace(".", "_"): row[k] for k in row}`. -/
def normalize_keys (row : List (String × String)) : List (String × String) :=
  row.foldl (fun acc kv => setField acc (pyReplace (pyStrip kv.1) "." "_") kv.2) []

/-- `Command.parse_row`, threading `self.sic_code_cache`: `.error`
exactly when the Python method raises. -/
def parse_row (lookup : String → Option Value → Value)
    (cache : List (String × String)) (raw : List (String × String)) :
    Except String (ParsedRow × List (String × String)) :=
  let row := clean_categories lookup (clean_fields (normalize_keys raw))
  match parse_fields ⟨[], [], [], cache⟩ row with
  | .error e => .error e
  | .ok st =>
    match buildPrevNames (st.prevGroups.map (fun g => g.2)) with
    | .error e => .error e
    | .ok pns =>
      .ok ({ company := st.record, in_latest_update := true,
             previous_names := pns, sic_codes := st.sic_codes }, st.cache)

example :
    parse_row idLookup [] [("CompanyNumber", "123")] =
      .ok ({ company :=
               [("CompanyNumber", .str "123"), ("CompanyCategory", .null),
                ("CompanyStatus", .null), ("Accounts_AccountCategory", .null)],
             in_latest_update := true, previous_names := [], sic_codes := [] },
           []) := by decide

example :
    parse_row idLookup []
      [("CompanyNumber", "123"), ("PreviousName_1_CONDATE", "garbage"),
       ("PreviousName_1_CompanyName", "OLD NAME")] =
      .error "ValueError: time data does not match format %d/%m/%Y" := by decide

example :
    parse_row idLookup []
      [("CompanyNumber", "123"), ("PreviousName_1_CONDATE", "01/02/2003"),
       ("PreviousName_1_CompanyName", "OLD NAME")] =
      .ok ({ company :=
               [("CompanyNumber", .str "123"), ("CompanyCategory", .null),
                ("CompanyStatus", .null), ("Accounts_AccountCategory", .null)],
             in_latest_update := true,
             previous_names :=
               [{ companyName := .str "OLD NAME", conDate := .date ⟨1, 2, 2003⟩,
                  in_latest_update := true }],
             sic_codes := [] },
           []) := by decide

example :
    parse_row idLookup [] [("SICCode_SicText_1", "62020 - IT consultancy")] =
      .ok ({ company :=
               [("CompanyCategory", .null), ("CompanyStatus", .null),
                ("Accounts_AccountCategory", .null)],
             in_latest_update := true, previous_names := [],
             sic_codes := [("62020", "IT consultancy")] },
           [("62020", "IT consultancy")]) := by decide

/-! ## `Command.fetch_file`

`fetch_file` walks the discovered ZIP links; for each it issues
`self.session.get(link)` (which may raise a network error such as
`ConnectionError` or `ChunkedEncodingError`), stores the response and
then calls `raise_for_status()` (which raises `HTTPError` for a 4xx or
5xx status).  The `try`/`except` around the body catches **only**
`requests.exceptions.ChunkedEncodingError`; any other exception
escapes `fetch_file` and aborts the run.

The model takes the link list and the network as arguments: `get`
returns either a response or the exception `session.get` raised.  A
response carries its HTTP status and its rows (the CSV rows the later
`parse_file` stage would decode from the ZIP body).
-/

/-- Exceptions raisable while fetching one link. -/
inductive FetchErr where
  | chunkedEncodingError
  | httpError (status : Nat)
  | connectionError
deriving DecidableEq

/-- An HTTP response: status code plus the CSV rows contained in the
ZIP body (the payload `parse_file` later iterates over). -/
structure Response where
  status : Nat
  rows : List (List (String × String))
deriving DecidableEq

/-- `response.raise_for_status()`: `HTTPError` for status `400..599`. -/
def raise_for_status (r : Response) : Except FetchErr Response :=
  if 400 ≤ r.status then .error (.httpError r.status) else .ok r

/-- `Command.fetch_file`: fetch every link; only
`ChunkedEncodingError` is caught (logged, link skipped); every other
exception — including the `HTTPError` of `raise_for_status` —
propagates and aborts the loop. -/
def fetch_file (links : List String) (get : String → Except FetchErr Response) :
    Except FetchErr (List (String × Response)) :=
  match links with
  | [] => .ok []
  | l :: ls =>
    match get l with
    | .error .chunkedEncodingError => fetch_file ls get
    | .error e => .error e
    | .ok r =>
      match raise_for_status r with
      | .error .chunkedEncodingError => fetch_file ls get
      | .error e => .error e
      | .ok r =>
        match fetch_file ls get with
        | .ok rest => .ok ((l, r) :: rest)
        | .error e => .error e

/-! ## `Command.add_record`: in-memory batching

`self.records` is a dict from model to a dict keyed by the model's
unique-field tuple (`unique_together`, or the primary key).
`add_record` assigns `self.records[model][unique_fields] = record`
— a later record with the same key replaces the earlier one — and
flushes **all** buffers (`save_all_records`) as soon as the `Company`
buffer has reached `bulk_limit = 10000` entries.

Keys and records are abstracted to naturals; the three models touched
by the batcher are enumerated.
-/

/-- The three models the import batches. -/
inductive CModel where
  | company
  | previousName
  | companySICCode
deriving DecidableEq

/-- The in-memory buffers `self.records`, one keyed dict per model. -/
structure Buffers where
  company : List (Nat × Nat)
  previousName : List (Nat × Nat)
  companySICCode : List (Nat × Nat)
deriving DecidableEq

/-- The buffer of one model. -/
def Buffers.get (b : Buffers) : CModel → List (Nat × Nat)
  | .company => b.company
  | .previousName => b.previousName
  | .companySICCode => b.companySICCode

/-- Replace the buffer of one model. -/
def Buffers.set (b : Buffers) : CModel → List (Nat × Nat) → Buffers
  | .company, t => { b with company := t }
  | .previousName, t => { b with previousName := t }
  | .companySICCode, t => { b with companySICCode := t }

/-- `self.records` right after `__init__`: every buffer empty. -/
def emptyBuffers : Buffers := ⟨[], [], []⟩

/-- `self.bulk_limit` of `import_companies.Command`. -/
def bulk_limit : Nat := 10000

/-- Keyed-dict assignment `self.records[model][unique_fields] = record`:
replace the record at an existing key, or append the key. -/
def insertRec (t : List (Nat × Nat)) (k v : Nat) : List (Nat × Nat) :=
  if t.any (fun r => r.1 = k) then
    t.map (fun r => if r.1 = k then (k, v) else r)
  else
    t ++ [(k, v)]

/-- Dict lookup `self.records[model][key]`. -/
def lookupRec (t : List (Nat × Nat)) (k : Nat) : Option Nat :=
  (t.find? (fun r => r.1 = k)).map (fun r => r.2)

/-- The insertion step of `add_record`, before the flush check. -/
def add_record_insert (b : Buffers) (m : CModel) (k v : Nat) : Buffers :=
  b.set m (insertRec (b.get m) k v)

/-- `Command.add_record`: insert, then flush every buffer
(`save_all_records`) when the `Company` buffer has reached
`bulk_limit`.  Only the `Company` buffer length is consulted. -/
def add_record (b : Buffers) (m : CModel) (k v : Nat) : Buffers :=
  let b' := add_record_insert b m k v
  if bulk_limit ≤ b'.company.length then emptyBuffers else b'

/-- A sequence of `add_record` calls, starting from given buffers. -/
def runAdds (b : Buffers) (ops : List (CModel × Nat × Nat)) : Buffers :=
  ops.foldl (fun b op => add_record b op.1 op.2.1 op.2.2) b

example :
    runAdds emptyBuffers [(.previousName, 1, 0), (.previousName, 1, 7), (.company, 4, 2)] =
      { company := [(4, 2)], previousName := [(1, 7)], companySICCode := [] } := by decide

/-! ## The database and `Command.handle`

The three flag-carrying tables are modelled as association lists from
a row key to the row's `in_latest_update` flag.  `Company` rows are
keyed by `CompanyNumber` (modelled from the spec: `models.py` is not
under `src/`; `MODEL_UPDATES` declares `unique_fields=["CompanyNumber"]`
and excludes `CompanyNumber` from the update fields, identifying it as
the conflict key); `PreviousName` rows by `(company, CompanyName)` and
`CompanySICCode` rows by `(company, sic_code)`, per
`MODEL_UPDATES[...]["unique_fields"]`.

`handle` wraps its whole body in `transaction.atomic()`:

1. `Model.objects.update(in_latest_update=False)` on all three tables;
2. `fetch_file`, then `parse_file`/`parse_row` over every CSV row,
   the parsed records being written back with
   `bulk_create(update_conflicts=True)` (an upsert that sets
   `in_latest_update=True` on conflict, per `MODEL_UPDATES`);
3. for `CompanySICCode` and `PreviousName` — and only those two
   models — `objects.exclude(in_latest_update=True).delete()`;
4. the raw SQL statements of `UPDATE_COMPANIES`.  Modelled from the
   spec: `_company_sql.py` is not under `src/`; the spec calls this
   step "raw SQL post-processing" and specifies no row deletions, so
   the model leaves the tables unchanged.

An exception anywhere inside the block (a non-chunked fetch error, a
`parse_row` raise) aborts the transaction and rolls every write back.
-/

/-- A table of flagged rows: row key paired with `in_latest_update`. -/
abbrev FlagTable (κ : Type) : Type := List (κ × Bool)

/-- `Model.objects.update(in_latest_update=False)`. -/
def markStale {κ : Type} (t : FlagTable κ) : FlagTable κ :=
  t.map (fun r => (r.1, false))

/-- Upsert one key with `in_latest_update=True`
(`bulk_create(update_conflicts=True)` with `in_latest_update` among
the update fields). -/
def upsertSeen {κ : Type} [DecidableEq κ] (t : FlagTable κ) (k : κ) : FlagTable κ :=
  if t.any (fun r => r.1 = k) then
    t.map (fun r => if r.1 = k then (k, true) else r)
  else
    t ++ [(k, true)]

/-- Upsert every key seen during the run. -/
def upsertAll {κ : Type} [DecidableEq κ] (t : FlagTable κ) (ks : List κ) : FlagTable κ :=
  ks.foldl upsertSeen t

/-- `objects.exclude(in_latest_update=True).delete()`: keep exactly
the rows whose flag is `True`. -/
def deleteStale {κ : Type} (t : FlagTable κ) : FlagTable κ :=
  t.filter (fun r => r.2 = true)

/-- The database: the three flag-carrying tables of the import. -/
structure CompaniesDB where
  companies : FlagTable Value
  previousNames : FlagTable (Value × Value)
  sicCodes : FlagTable (Value × String)
deriving DecidableEq

/-- The row keys one run touches, per table. -/
structure Touched where
  companies : List Value
  previousNames : List (Value × Value)
  sicCodes : List (Value × String)
deriving DecidableEq

/-- Step 1 of `handle`: flag every row of all three tables stale. -/
def markAllStale (db : CompaniesDB) : CompaniesDB :=
  { companies := markStale db.companies,
    previousNames := markStale db.previousNames,
    sicCodes := markStale db.sicCodes }

/-- Steps 2–4 of `handle` on an already-unflagged database: upsert
every touched key with the flag set, then delete unflagged rows of
`CompanySICCode` and `PreviousName` (and of those two models only);
the `UPDATE_COMPANIES` SQL leaves row membership unchanged. -/
def finishImport (db : CompaniesDB) (t : Touched) : CompaniesDB :=
  { companies := upsertAll db.companies t.companies,
    previousNames := deleteStale (upsertAll db.previousNames t.previousNames),
    sicCodes := deleteStale (upsertAll db.sicCodes t.sicCodes) }

/-- The write path of a successful `handle` run. -/
def run_import (db : CompaniesDB) (t : Touched) : CompaniesDB :=
  finishImport (markAllStale db) t

/-- The key of a parsed row's `Company`: its `CompanyNumber` field. -/
def companyKey (r : ParsedRow) : Value :=
  (getField r.company "CompanyNumber").getD .null

/-- The table keys touched by a list of parsed rows. -/
def touchedOf (rows : List ParsedRow) : Touched :=
  { companies := rows.map companyKey,
    previousNames :=
      rows.flatMap (fun r => r.previous_names.map (fun n => (companyKey r, n.companyName))),
    sicCodes :=
      rows.flatMap (fun r => r.sic_codes.map (fun c => (companyKey r, c.1))) }

/-- Parse every CSV row in order, threading `sic_code_cache`; the
first `parse_row` raise aborts. -/
def parse_all (lookup : String → Option Value → Value)
    (cache : List (String × String)) (rows : List (List (String × String))) :
    Except String (List ParsedRow) :=
  match rows with
  | [] => .ok []
  | r :: rs =>
    match parse_row lookup cache r with
    | .error e => .error e
    | .ok (pr, cache') =>
      match parse_all lookup cache' rs with
      | .error e => .error e
      | .ok prs => .ok (pr :: prs)

/-- Error message of a propagated fetch exception. -/
def fetchErrMsg : FetchErr → String
  | .chunkedEncodingError => "requests.exceptions.ChunkedEncodingError"
  | .httpError s => "requests.exceptions.HTTPError " ++ toString s
  | .connectionError => "requests.exceptions.ConnectionError"

/-- The body of `Command.handle` (everything inside
`transaction.atomic()`): mark all rows stale, fetch, parse, upsert,
delete stale `CompanySICCode`/`PreviousName` rows, run the SQL. -/
def handle_body (db : CompaniesDB) (links : List String)
    (get : String → Except FetchErr Response)
    (lookup : String → Option Value → Value) : Except String CompaniesDB :=
  let db1 := markAllStale db
  match fetch_file links get with
  | .error e => .error (fetchErrMsg e)
  | .ok files =>
    match parse_all lookup [] (files.flatMap (fun f => f.2.rows)) with
    | .error e => .error e
    | .ok parsed => .ok (finishImport db1 (touchedOf parsed))

/-- `Command.handle`: the body runs inside `transaction.atomic()`, so
an exception rolls back every write — the database is returned
unchanged together with the exception. -/
def handle (db : CompaniesDB) (links : List String)
    (get : String → Except FetchErr Response)
    (lookup : String → Option Value → Value) : CompaniesDB × Option String :=
  match handle_body db links get lookup with
  | .ok db' => (db', none)
  | .error e => (db, some e)

example :
    handle { companies := [(.str "999", true)], previousNames := [], sicCodes := [] }
      ["http://x/BasicCompanyData-1.zip"]
      (fun _ => .ok ⟨200, [[("CompanyNumber", "123")]]⟩) idLookup =
      ({ companies := [(.str "999", false), (.str "123", true)],
         previousNames := [], sicCodes := [] }, none) := by decide

/-! ## `logcommand`: `CommandLogHandler` and the wrapper command

`logcommand` creates a `CommandLog` row with status `RUNNING`,
attaches a `CommandLogHandler` (level `INFO`) to the root logger
(also set to level `INFO`), and runs the wrapped command.

* `emit` appends the formatted record to both `commandlog.log` and the
  handler's own `log` string, counts records at `ERROR`/`CRITICAL`
  level in `self.errors`, and saves the row.
* `teardown` sets the status to `FAILED` when `errors > 0`, else
  `COMPLETED`, copies the accumulated log into `commandlog.logs` when
  `commandlog.log` is still falsy, stamps `completed`, and saves.
* An exception from the wrapped command is logged with
  `logger.exception(err)` (an `ERROR`-level record), `teardown` runs,
  and the exception is re-raised.

`CommandLog` (from `utils/models.py`, not under `src/`) is modelled
from the spec as the persisted run record: command text, log text, a
`running`/`completed`/`failed` status, and timestamps.  Time is an
abstract `Nat` passed in.
-/

/-- Python `logging` levels used here. -/
def INFO : Nat := 20
/-- `logging.ERROR`. -/
def ERROR : Nat := 40
/-- `logging.CRITICAL`. -/
def CRITICAL : Nat := 50

/-- A log record: level, logger name, message. -/
structure LogRecord where
  levelno : Nat
  name : String
  msg : String
deriving DecidableEq

/-- `CommandLog.CommandLogStatus`. -/
inductive CommandLogStatus where
  | running
  | completed
  | failed
deriving DecidableEq

/-- Modelled from the spec: the persisted `CommandLog` row
(`utils/models.py` is not under `src/`): "log text persisted alongside
a run-status record (`running`/`completed`/`failed`)". -/
structure CommandLog where
  command : String
  log : Option String
  logs : Option String
  status : CommandLogStatus
  started : Nat
  completedAt : Option Nat
deriving DecidableEq

/-- The in-memory state of a `CommandLogHandler`. -/
structure Handler where
  commandlog : CommandLog
  log : String
  errors : Nat
deriving DecidableEq

/-- The `logging.Formatter("{levelname} {asctime} [{name}] {message}")`
attached to the handler (`asctime` is abstracted away). -/
def formatRecord (r : LogRecord) : String :=
  (if r.levelno = CRITICAL then "CRITICAL" else
   if r.levelno = ERROR then "ERROR" else
   if r.levelno = 30 then "WARNING" else
   if r.levelno = INFO then "INFO" else "DEBUG")
    ++ " [" ++ r.name ++ "] " ++ r.msg

/-- `record.levelno in (logging.ERROR, logging.CRITICAL)`. -/
def isErrorLevel (r : LogRecord) : Bool :=
  r.levelno = ERROR || r.levelno = CRITICAL

/-- `CommandLogHandler.emit`: append the formatted record to the
persisted log and the handler's log, count `ERROR`/`CRITICAL`
records, save. -/
def emit (h : Handler) (r : LogRecord) : Handler :=
  let msg := formatRecord r
  { commandlog :=
      { h.commandlog with log := some ((h.commandlog.log.getD "") ++ msg ++ "\n") },
    log := h.log ++ msg ++ "\n",
    errors := h.errors + (if isErrorLevel r then 1 else 0) }

/-- `CommandLogHandler.teardown`: status from the error count, log
backfill, completion timestamp, save. -/
def teardown (h : Handler) (now : Nat) : Handler :=
  let cl := h.commandlog
  let cl := { cl with status := if h.errors > 0 then .failed else .completed }
  let cl :=
    if h.log ≠ "" && cl.log.getD "" = "" then { cl with logs := some h.log } else cl
  { h with commandlog := { cl with completedAt := some now } }

/-- What the wrapped command did: the records it logged (in order) and
whether `call_command` returned or raised. -/
structure WrappedCommand where
  emitted : List LogRecord
  result : Except String Unit
deriving DecidableEq

/-- Records the root logger (level `INFO`) forwards to the handler. -/
def reachesHandler (rs : List LogRecord) : List LogRecord :=
  rs.filter (fun r => INFO ≤ r.levelno)

/-- The freshly created `CommandLog` row (`status=RUNNING`). -/
def freshCommandLog (command : String) (started : Nat) : CommandLog :=
  { command := command, log := none, logs := none, status := .running,
    started := started, completedAt := none }

/-- `logcommand.Command.handle`: create the run record, attach the
handler, run the wrapped command; on an exception, log it at `ERROR`
level (`logger.exception`), tear down and re-raise; otherwise tear
down.  Returns the command's result and the persisted row. -/
def logcommand_handle (command : String) (cmd : WrappedCommand)
    (started now : Nat) : Except String Unit × CommandLog :=
  let h0 : Handler := ⟨freshCommandLog command started, "", 0⟩
  let h1 := (reachesHandler cmd.emitted).foldl emit h0
  match cmd.result with
  | .ok _ => (.ok (), (teardown h1 now).commandlog)
  | .error err =>
    let h2 := emit h1 ⟨ERROR, "root", err⟩
    (.error err, (teardown h2 now).commandlog)

example :
    logcommand_handle "import_companies" ⟨[⟨INFO, "root", "starting"⟩], .error "boom"⟩ 3 9 =
      (.error "boom",
       { command := "import_companies",
         log := some "INFO [root] starting\nERROR [root] boom\n",
         logs := none, status := .failed, started := 3, completedAt := some 9 }) := by
  decide

example :
    logcommand_handle "import_companies" ⟨[⟨ERROR, "root", "bad row"⟩], .ok ()⟩ 3 9 =
      (.ok (),
       { command := "import_companies",
         log := some "ERROR [root] bad row\n",
         logs := none, status := .failed, started := 3, completedAt := some 9 }) := by
  decide

/-! ## The postcode import fixture (`test_import_chd.py`)

Modelled from the spec: the `import_chd` command, the `GeoCode` model
and the fixture ZIP `Code_History_Database_May_2023_UK.zip` are not
under `src/` (only the test is).  The spec records the observable
outcome: "importing a fixture ZIP yields exactly 500 geocode rows, 417
of status `live`, and specific named lookups resolve to expected
descriptive strings or null".  The model is the resulting `GeoCode`
table with exactly those properties.
-/

/-- A `GeoCode` row: code, optional name, status. -/
structure GeoCode where
  GEOGCD : String
  GEOGNM : Option String
  STATUS : String
deriving DecidableEq

/-- Modelled from the spec: the `GeoCode` table produced by running
`import_chd` against `Code_History_Database_May_2023_UK.zip` — 500
rows, 417 of status `"live"`, with `E04005721` named
"Skidbrooke with Saltfleet Haven" and `E33003018` unnamed. -/
def importCHDResult : List GeoCode :=
  [⟨"E04005721", some "Skidbrooke with Saltfleet Haven", "live"⟩,
   ⟨"E33003018", none, "live"⟩]
    ++ (List.range 415).map (fun i => ⟨"L" ++ toString i, some ("area " ++ toString i), "live"⟩)
    ++ (List.range 83).map
        (fun i => ⟨"T" ++ toString i, some ("area t" ++ toString i), "terminated"⟩)

/-- `GeoCode.objects.get(GEOGCD=cd)` against the modelled table. -/
def geoCodeGet (cd : String) : Option GeoCode :=
  importCHDResult.find? (fun g => g.GEOGCD = cd)

/-! # Theorems

Helper lemmas first, then one theorem per claim of the specification,
with witnesses and counterexamples as separate closed theorems.
-/

/-! ## Flag-table lemmas -/

lemma markStale_flag {κ : Type} (t : FlagTable κ) :
    ∀ r ∈ markStale t, r.2 = false := by
  intro r hr
  simp only [markStale, List.mem_map] at hr
  obtain ⟨a, _, rfl⟩ := hr
  rfl

lemma deleteStale_flag {κ : Type} (t : FlagTable κ) :
    ∀ r ∈ deleteStale t, r.2 = true := by
  intro r hr
  simp only [deleteStale, List.mem_filter, decide_eq_true_eq] at hr
  exact hr.2

lemma upsertSeen_self {κ : Type} [DecidableEq κ] (t : FlagTable κ) (k : κ) :
    (k, true) ∈ upsertSeen t k := by
  unfold upsertSeen
  by_cases h : t.any (fun r => r.1 = k) = true
  · rw [if_pos h]
    simp only [List.any_eq_true, decide_eq_true_eq] at h
    obtain ⟨r, hr, hk⟩ := h
    refine List.mem_map.2 ⟨r, hr, ?_⟩
    rw [if_pos hk]
  · rw [if_neg h]
    exact List.mem_append_right _ (List.mem_singleton.2 rfl)

lemma upsertSeen_mem_true {κ : Type} [DecidableEq κ] (t : FlagTable κ) (k k' : κ)
    (h : (k, true) ∈ t) : (k, true) ∈ upsertSeen t k' := by
  unfold upsertSeen
  by_cases ha : t.any (fun r => r.1 = k') = true
  · rw [if_pos ha]
    refine List.mem_map.2 ⟨(k, true), h, ?_⟩
    by_cases hk : k = k'
    · subst hk; simp
    · rw [if_neg (by simpa using hk)]
  · rw [if_neg ha]
    exact List.mem_append_left _ h

lemma upsertSeen_mem_untouched {κ : Type} [DecidableEq κ] (t : FlagTable κ)
    (k k' : κ) (b : Bool) (h : (k, b) ∈ t) (hk : k ≠ k') :
    (k, b) ∈ upsertSeen t k' := by
  unfold upsertSeen
  by_cases ha : t.any (fun r => r.1 = k') = true
  · rw [if_pos ha]
    refine List.mem_map.2 ⟨(k, b), h, ?_⟩
    rw [if_neg (by simpa using hk)]
  · rw [if_neg ha]
    exact List.mem_append_left _ h

lemma upsertAll_mem_true_of_mem {κ : Type} [DecidableEq κ]
    (ks : List κ) (t : FlagTable κ) (k : κ) (h : (k, true) ∈ t) :
    (k, true) ∈ upsertAll t ks := by
  induction ks generalizing t with
  | nil => exact h
  | cons k' ks ih => exact ih _ (upsertSeen_mem_true t k k' h)

lemma upsertAll_mem_true {κ : Type} [DecidableEq κ]
    (ks : List κ) (t : FlagTable κ) (k : κ) (h : k ∈ ks) :
    (k, true) ∈ upsertAll t ks := by
  induction ks generalizing t with
  | nil => cases h
  | cons k' ks ih =>
    rcases List.mem_cons.1 h with rfl | hmem
    · exact upsertAll_mem_true_of_mem ks _ k (upsertSeen_self t k)
    · exact ih _ hmem

lemma upsertAll_mem_untouched {κ : Type} [DecidableEq κ]
    (ks : List κ) (t : FlagTable κ) (k : κ) (b : Bool)
    (h : (k, b) ∈ t) (hk : k ∉ ks) : (k, b) ∈ upsertAll t ks := by
  induction ks generalizing t with
  | nil => exact h
  | cons k' ks ih =>
    exact ih _ (upsertSeen_mem_untouched t k k' b h (fun e => hk (e ▸ List.mem_cons_self _ _)))
      (fun e => hk (List.mem_cons_of_mem _ e))

lemma markStale_mem {κ : Type} (t : FlagTable κ) (k : κ) (b : Bool)
    (h : (k, b) ∈ t) : (k, false) ∈ markStale t :=
  List.mem_map.2 ⟨(k, b), h, rfl⟩

lemma deleteStale_mem_true {κ : Type} (t : FlagTable κ) (k : κ)
    (h : (k, true) ∈ t) : (k, true) ∈ deleteStale t :=
  List.mem_filter.2 ⟨h, by simp⟩

/-! ## C1: the stale-deletion convention -/

/-- **C1** (corrected).  For every completed run of
`import_companies.handle`: at the start of the run every existing row
of all three tables has `in_latest_update=False`; every row seen
during the run ends with `in_latest_update=True`; at the end of the
run every `CompanySICCode` and `PreviousName` row whose flag is not
`True` is deleted — but stale `Company` rows are **retained** (merely
left unflagged), because the deletion loop runs over
`[CompanySICCode, PreviousName]` only. -/
theorem C1_stale_deletion_amended (db : CompaniesDB) (t : Touched) :
    (∀ r ∈ (markAllStale db).companies, r.2 = false) ∧
    (∀ r ∈ (markAllStale db).previousNames, r.2 = false) ∧
    (∀ r ∈ (markAllStale db).sicCodes, r.2 = false) ∧
    (∀ k ∈ t.companies, (k, true) ∈ (run_import db t).companies) ∧
    (∀ k ∈ t.previousNames, (k, true) ∈ (run_import db t).previousNames) ∧
    (∀ k ∈ t.sicCodes, (k, true) ∈ (run_import db t).sicCodes) ∧
    (∀ r ∈ (run_import db t).previousNames, r.2 = true) ∧
    (∀ r ∈ (run_import db t).sicCodes, r.2 = true) ∧
    (∀ k b, (k, b) ∈ db.companies → k ∉ t.companies →
      (k, false) ∈ (run_import db t).companies) := by
  refine ⟨markStale_flag _, markStale_flag _, markStale_flag _, ?_, ?_, ?_, ?_, ?_, ?_⟩
  · intro k hk
    exact upsertAll_mem_true _ _ _ hk
  · intro k hk
    exact deleteStale_mem_true _ _ (upsertAll_mem_true _ _ _ hk)
  · intro k hk
    exact deleteStale_mem_true _ _ (upsertAll_mem_true _ _ _ hk)
  · intro r hr
    exact deleteStale_flag _ r hr
  · intro r hr
    exact deleteStale_flag _ r hr
  · intro k b hmem hk
    exact upsertAll_mem_untouched _ _ _ _ (markStale_mem _ _ _ hmem) hk

/-- Witness for C1: a concrete run.  A touched company, a touched
previous name and a touched SIC code all end the run present and
flagged `True`, while an untouched company row survives unflagged. -/
theorem C1_stale_deletion_amended_witness :
    (Value.str "123", true) ∈
      (run_import
        { companies := [(.str "999", true)], previousNames := [((.str "999", .str "OLD"), true)], sicCodes := [] }
        { companies := [.str "123"], previousNames := [(.str "123", .str "OLD NAME")],
          sicCodes := [(.str "123", "62020")] }).companies ∧
    ((Value.str "123", Value.str "OLD NAME"), true) ∈
      (run_import
        { companies := [(.str "999", true)], previousNames := [((.str "999", .str "OLD"), true)], sicCodes := [] }
        { companies := [.str "123"], previousNames := [(.str "123", .str "OLD NAME")],
          sicCodes := [(.str "123", "62020")] }).previousNames ∧
    ((Value.str "123", "62020"), true) ∈
      (run_import
        { companies := [(.str "999", true)], previousNames := [((.str "999", .str "OLD"), true)], sicCodes := [] }
        { companies := [.str "123"], previousNames := [(.str "123", .str "OLD NAME")],
          sicCodes := [(.str "123", "62020")] }).sicCodes ∧
    (Value.str "999", false) ∈
      (run_import
        { companies := [(.str "999", true)], previousNames := [((.str "999", .str "OLD"), true)], sicCodes := [] }
        { companies := [.str "123"], previousNames := [(.str "123", .str "OLD NAME")],
          sicCodes := [(.str "123", "62020")] }).companies := by
  refine ⟨?_, ?_, ?_, ?_⟩
  · exact (C1_stale_deletion_amended _ _).2.2.2.1 _ (by decide)
  · exact (C1_stale_deletion_amended _ _).2.2.2.2.1 _ (by decide)
  · exact (C1_stale_deletion_amended _ _).2.2.2.2.2.1 _ (by decide)
  · exact (C1_stale_deletion_amended _ _).2.2.2.2.2.2.2.2 _ true (by decide) (by decide)

/-- **C1 counterexample.**  A run of `handle` that completes without
error (`none` in the second component) on a database holding one
untouched `Company` row: the claim says every row whose
`in_latest_update` is not `True` is deleted at the end of the run, yet
the untouched company row is still present, flagged `False`. -/
theorem C1_counterexample :
    (handle { companies := [(.str "999", true)], previousNames := [], sicCodes := [] }
        ["http://download.companieshouse.gov.uk/BasicCompanyData-1.zip"]
        (fun _ => .ok ⟨200, [[("CompanyNumber", "123")]]⟩) idLookup).2 = none ∧
    (Value.str "999", false) ∈
      (handle { companies := [(.str "999", true)], previousNames := [], sicCodes := [] }
        ["http://download.companieshouse.gov.uk/BasicCompanyData-1.zip"]
        (fun _ => .ok ⟨200, [[("CompanyNumber", "123")]]⟩) idLookup).1.companies := by
  constructor
  · decide
  · decide

/-! ## C6: one top-level transaction -/

/-- **C6** (confirmed).  The whole body of `handle` runs inside a
single `transaction.atomic()` block, so whenever a run raises — the
second component of `handle` carries the exception — the database
returned is exactly the database passed in: no partial import is
visible after a failed run. -/
theorem C6_atomic_rollback (db : CompaniesDB) (links : List String)
    (get : String → Except FetchErr Response)
    (lookup : String → Option Value → Value) (e : String)
    (h : (handle db links get lookup).2 = some e) :
    (handle db links get lookup).1 = db := by
  cases hb : handle_body db links get lookup with
  | ok db' => simp [handle, hb] at h
  | error e' => simp [handle, hb]

/-- Witness for C6: a concrete failed run — a CSV row whose
`PreviousName_1_CONDATE` is malformed makes `parse_row` raise inside
the transaction, and the database (which held one company) is
returned unchanged. -/
theorem C6_atomic_rollback_witness :
    (handle { companies := [(.str "999", true)], previousNames := [], sicCodes := [] }
        ["http://download.companieshouse.gov.uk/BasicCompanyData-1.zip"]
        (fun _ => .ok ⟨200, [[("PreviousName_1_CONDATE", "bad")]]⟩) idLookup).1 =
      { companies := [(.str "999", true)], previousNames := [], sicCodes := [] } :=
  C6_atomic_rollback _ _ _ _
    "ValueError: time data does not match format %d/%m/%Y" (by decide)

/-! ## C2: date-parsing failures -/

/-- **C2** (corrected).  `clean_fields` swallows a date-parsing
failure for every field listed in `date_fields`, setting the field to
`None` — but the `PreviousName_*_CONDATE` columns are parsed inside
`parse_row` with a bare `strptime` and **no** exception handling, so a
malformed `CONDATE` value raises `ValueError` and fails the row. -/
theorem C2_date_swallow_amended (f v : String) (st : LoopState) (s : String) :
    (date_fields.contains f = true → strptimeDMY (pyStrip v) = none →
      cleanField f v = .null) ∧
    (s ≠ "" → strptimeDMY s = none →
      parse_key st "PreviousName_1_CONDATE" (.str s) =
        .error "ValueError: time data does not match format %d/%m/%Y") := by
  constructor
  · intro hf hp
    have hf' : f ∈ date_fields := by simpa using hf
    unfold cleanField
    by_cases hv : v = ""
    · simp [hv]
    · simp [hv, hf, hf', hp]
  · intro hs hp
    have hpre : pyStartsWith "PreviousName_1_CONDATE" "PreviousName_" = true := by decide
    have hsplit : pySplit "PreviousName_1_CONDATE" "_" = ["PreviousName", "1", "CONDATE"] := by
      decide
    simp [parse_key, hpre, hsplit, Value.truthy, hs, hp]

/-- Witness for C2 at a concrete malformed date. -/
theorem C2_date_swallow_amended_witness :
    cleanField "DissolutionDate" "oops" = .null ∧
    parse_key ⟨[], [], [], []⟩ "PreviousName_1_CONDATE" (.str "oops") =
      .error "ValueError: time data does not match format %d/%m/%Y" :=
  ⟨(C2_date_swallow_amended "DissolutionDate" "oops" ⟨[], [], [], []⟩ "oops").1
      (by decide) (by decide),
   (C2_date_swallow_amended "DissolutionDate" "oops" ⟨[], [], [], []⟩ "oops").2
      (by decide) (by decide)⟩

/-- **C2 counterexample.**  A row whose `PreviousName_1_CONDATE` holds
a malformed date string makes `parse_row` raise: the malformed date
field is not set to empty, it fails the whole row. -/
theorem C2_counterexample :
    parse_row idLookup []
      [("CompanyNumber", "123"), ("PreviousName_1_CompanyName", "OLD NAME"),
       ("PreviousName_1_CONDATE", "not-a-date")] =
      .error "ValueError: time data does not match format %d/%m/%Y" := by decide

/-! ## C3: network errors during fetch -/

/-- **C3** (corrected).  In `fetch_file` only
`requests.exceptions.ChunkedEncodingError` is caught per link (the
link is skipped and the loop continues); any other exception — a
connection failure raised by `session.get`, or the `HTTPError` raised
by `raise_for_status()` on a 4xx/5xx response — propagates out of
`fetch_file` and aborts the run. -/
theorem C3_fetch_errors_amended (ls : List String) (l : String)
    (get : String → Except FetchErr Response) :
    (get l = .error .chunkedEncodingError → fetch_file (l :: ls) get = fetch_file ls get) ∧
    (∀ e, get l = .error e → e ≠ .chunkedEncodingError →
      fetch_file (l :: ls) get = .error e) ∧
    (∀ r, get l = .ok r → 400 ≤ r.status →
      fetch_file (l :: ls) get = .error (.httpError r.status)) := by
  refine ⟨?_, ?_, ?_⟩
  · intro h
    simp [fetch_file, h]
  · intro e h hne
    cases e with
    | chunkedEncodingError => exact absurd rfl hne
    | httpError s => simp [fetch_file, h]
    | connectionError => simp [fetch_file, h]
  · intro r h hs
    simp [fetch_file, h, raise_for_status, hs]

/-- Witness for C3: a connection error on the only link propagates. -/
theorem C3_fetch_errors_amended_witness :
    fetch_file ["http://a/BasicCompanyData-1.zip"] (fun _ => .error .connectionError) =
      .error .connectionError :=
  (C3_fetch_errors_amended [] "http://a/BasicCompanyData-1.zip"
      (fun _ => .error .connectionError)).2.1 .connectionError rfl (by decide)

/-- **C3 counterexample.**  A connection error while fetching the
first of two discovered links is *not* caught: `fetch_file` aborts
with the error instead of continuing with the second link. -/
theorem C3_counterexample :
    fetch_file
      ["http://a/BasicCompanyData-1.zip", "http://a/BasicCompanyData-2.zip"]
      (fun l =>
        if l = "http://a/BasicCompanyData-1.zip" then .error .connectionError
        else .ok ⟨200, []⟩) =
      .error .connectionError := by decide

/-! ## C10: the SIC-code precondition -/

lemma splitOnceAux_of_not_contains (sep : List Char) :
    ∀ (l acc : List Char), containsSub sep l = false →
      splitOnceAux sep acc l = [acc.reverse ++ l] := by
  intro l
  induction l with
  | nil =>
    intro acc _
    simp [splitOnceAux]
  | cons c cs ih =>
    intro acc hc
    unfold containsSub at hc
    rw [Bool.or_eq_false_iff] at hc
    unfold splitOnceAux
    rw [if_neg (by simp [hc.1])]
    rw [ih (c :: acc) hc.2]
    simp

lemma pySplitOnce_of_not_contains (s sep : String) (h : pyContains s sep = false) :
    pySplitOnce s sep = [s] := by
  unfold pySplitOnce
  rw [splitOnceAux_of_not_contains sep.data s.data [] h]
  cases s
  simp

/-- **C10** (corrected).  In the `SICCode_` branch of `parse_row`, a
value is skipped (no SIC record, no raise) exactly when it is falsy or
becomes the empty string after `replace("None Supplied", "")` removes
*every* occurrence of `"None Supplied"` — so not only values equal to
`"None Supplied"`: e.g. `"None SuppliedNone Supplied"` is skipped too.
Any other non-empty value lacking the separator `" - "` raises
`ValueError`, failing the row. -/
theorem C10_sic_precondition_amended (st : LoopState) (k s : String)
    (hpn : pyStartsWith k "PreviousName_" = false)
    (hsic : pyStartsWith k "SICCode_" = true) :
    (parse_key st k .null = .ok st) ∧
    (pyReplace s "None Supplied" "" = "" → parse_key st k (.str s) = .ok st) ∧
    (s ≠ "" → pyReplace s "None Supplied" "" ≠ "" → pyContains s " - " = false →
      parse_key st k (.str s) = .error "ValueError: not enough values to unpack") := by
  refine ⟨?_, ?_, ?_⟩
  · simp [parse_key, hpn, hsic]
  · intro hr
    simp [parse_key, hpn, hsic, hr]
  · intro hs hr hc
    simp [parse_key, hpn, hsic, hs, hr, pySplitOnce_of_not_contains s " - " hc]

/-- Witness for C10: `"62020 Information technology"` (non-empty, not
`"None Supplied"`, no `" - "`) raises. -/
theorem C10_sic_precondition_amended_witness :
    parse_key ⟨[], [], [], []⟩ "SICCode_SicText_1" (.str "62020 Information technology") =
      .error "ValueError: not enough values to unpack" :=
  (C10_sic_precondition_amended ⟨[], [], [], []⟩ "SICCode_SicText_1"
      "62020 Information technology" (by decide) (by decide)).2.2
    (by decide) (by decide) (by decide)

/-- **C10 counterexample.**  `"None SuppliedNone Supplied"` is
non-empty, differs from `"None Supplied"` and contains no `" - "`, yet
`parse_row` does **not** raise on it: the row parses cleanly with no
SIC record, because `replace` removes every occurrence. -/
theorem C10_counterexample :
    parse_row idLookup [] [("SICCode_SicText_1", "None SuppliedNone Supplied")] =
      .ok ({ company :=
               [("CompanyCategory", .null), ("CompanyStatus", .null),
                ("Accounts_AccountCategory", .null)],
             in_latest_update := true, previous_names := [], sic_codes := [] },
           []) := by decide

/-! ## C5: batching up to `bulk_limit` -/

lemma runAdds_company_lt (ops : List (CModel × Nat × Nat)) :
    ∀ b : Buffers, b.company.length < bulk_limit →
      (runAdds b ops).company.length < bulk_limit := by
  induction ops with
  | nil => exact fun b hb => hb
  | cons op ops ih =>
    intro b hb
    simp only [runAdds, List.foldl_cons]
    apply ih
    unfold add_record
    by_cases h : bulk_limit ≤ (add_record_insert b op.1 op.2.1 op.2.2).company.length
    · rw [if_pos h]
      simp [emptyBuffers, bulk_limit]
    · rw [if_neg h]
      omega

/-- No pair in `(List.range n).map (i ↦ (i, 0))` has key `n`. -/
lemma range_pairs_no_key (n : Nat) :
    (((List.range n).map (fun i => (i, (0 : Nat)))).any (fun r => r.1 = n)) = false := by
  simp only [List.any_eq_false]
  intro r hr
  simp only [List.mem_map, List.mem_range] at hr
  obtain ⟨i, hi, rfl⟩ := hr
  simp only [decide_eq_true_eq]
  omega

/-- Inserting the fresh key `n` into the buffer holding keys
`0, …, n-1` appends it. -/
lemma insert_range_company (n : Nat) :
    add_record_insert ⟨(List.range n).map (fun i => (i, 0)), [], []⟩ .company n 0 =
      ⟨(List.range (n + 1)).map (fun i => (i, 0)), [], []⟩ := by
  simp [add_record_insert, Buffers.get, Buffers.set, insertRec, range_pairs_no_key n,
    List.range_succ]

lemma runAdds_append (b : Buffers) (l1 l2 : List (CModel × Nat × Nat)) :
    runAdds b (l1 ++ l2) = runAdds (runAdds b l1) l2 := by
  simp [runAdds, List.foldl_append]

/-- Adding `n` distinct `PreviousName` records (and nothing else)
never flushes: the `Company` buffer stays empty, so the flush
condition never fires and the `PreviousName` buffer grows without
bound. -/
lemma runAdds_prevName_range (n : Nat) :
    runAdds emptyBuffers ((List.range n).map (fun i => (CModel.previousName, i, 0))) =
      ⟨[], (List.range n).map (fun i => (i, 0)), []⟩ := by
  induction n with
  | zero => rfl
  | succ n ih =>
    rw [List.range_succ, List.map_append, runAdds_append, ih]
    simp [runAdds, add_record, add_record_insert, Buffers.get, Buffers.set, insertRec,
      range_pairs_no_key n, bulk_limit, List.range_succ]

/-- **C5** (corrected).  The flush in `add_record` consults only the
`Company` buffer (`len(self.records[Company]) >= self.bulk_limit`), so
after every call the `Company` buffer is strictly below
`bulk_limit = 10000` — and when an insertion brings it to the limit,
`save_all_records` empties every buffer.  The bound does **not** hold
for the other models' buffers (see the counterexample). -/
theorem C5_bulk_limit_amended (ops : List (CModel × Nat × Nat)) (b : Buffers)
    (m : CModel) (k v : Nat) :
    (runAdds emptyBuffers ops).company.length < bulk_limit ∧
    (bulk_limit ≤ (add_record_insert b m k v).company.length →
      add_record b m k v = emptyBuffers) := by
  constructor
  · exact runAdds_company_lt ops emptyBuffers (by simp [emptyBuffers, bulk_limit])
  · intro h
    unfold add_record
    rw [if_pos h]

/-- Witness for C5: the `Company` bound after one call, and a flush
triggered by the 10000th distinct company record. -/
theorem C5_bulk_limit_amended_witness :
    (runAdds emptyBuffers [(.company, 0, 0)]).company.length < bulk_limit ∧
    add_record ⟨(List.range 9999).map (fun i => (i, 0)), [], []⟩ .company 9999 0 =
      emptyBuffers := by
  have h := C5_bulk_limit_amended [(.company, 0, 0)]
    ⟨(List.range 9999).map (fun i => (i, 0)), [], []⟩ .company 9999 0
  refine ⟨h.1, h.2 ?_⟩
  rw [insert_range_company]
  simp [bulk_limit]

/-- **C5 counterexample.**  10000 `add_record` calls for distinct
`PreviousName` records leave 10000 records buffered for that model —
not strictly below the threshold — because only the `Company` buffer
is consulted for flushing. -/
theorem C5_counterexample :
    ¬ ((runAdds emptyBuffers
          ((List.range 10000).map (fun i => (CModel.previousName, i, 0)))).previousName.length
        < bulk_limit) := by
  rw [runAdds_prevName_range]
  simp [bulk_limit]

/-! ## C7: dedup keyed on the unique fields -/

lemma lookupRec_map_replace (t : List (Nat × Nat)) (k v : Nat)
    (h : t.any (fun r => r.1 = k) = true) :
    lookupRec (t.map (fun r => if r.1 = k then (k, v) else r)) k = some v := by
  induction t with
  | nil => simp at h
  | cons r t ih =>
    by_cases hr : r.1 = k
    · simp only [List.map_cons, if_pos hr, lookupRec]
      rw [List.find?_cons_of_pos _ (by simp)]
      rfl
    · have h' : t.any (fun r => r.1 = k) = true := by
        simp only [List.any_cons, Bool.or_eq_true, decide_eq_true_eq] at h
        rcases h with h | h
        · exact absurd h hr
        · exact h
      simp only [List.map_cons, if_neg hr, lookupRec] at ih ⊢
      rw [List.find?_cons_of_neg _ (by simp [hr])]
      exact ih h'

lemma lookupRec_append_fresh (t : List (Nat × Nat)) (k v : Nat)
    (h : t.any (fun r => r.1 = k) = false) :
    lookupRec (t ++ [(k, v)]) k = some v := by
  induction t with
  | nil => simp [lookupRec, List.find?]
  | cons r t ih =>
    simp only [List.any_cons, Bool.or_eq_false_iff] at h
    have hr : ¬ r.1 = k := by simpa using h.1
    simp only [lookupRec] at ih ⊢
    rw [List.cons_append, List.find?_cons_of_neg _ (by simp [hr])]
    exact ih h.2

lemma lookupRec_insertRec (t : List (Nat × Nat)) (k v : Nat) :
    lookupRec (insertRec t k v) k = some v := by
  unfold insertRec
  by_cases h : t.any (fun r => r.1 = k) = true
  · rw [if_pos h]
    exact lookupRec_map_replace t k v h
  · rw [if_neg h]
    refine lookupRec_append_fresh t k v ?_
    simp only [Bool.not_eq_true] at h
    exact h

lemma keys_insertRec_existing (t : List (Nat × Nat)) (k v : Nat)
    (h : t.any (fun r => r.1 = k) = true) :
    (insertRec t k v).map Prod.fst = t.map Prod.fst := by
  unfold insertRec
  rw [if_pos h, List.map_map]
  apply List.map_congr_left
  intro r _
  by_cases hr : r.1 = k
  · simp [hr]
  · simp [hr]

lemma nodup_keys_insertRec (t : List (Nat × Nat)) (k v : Nat)
    (h : (t.map Prod.fst).Nodup) : ((insertRec t k v).map Prod.fst).Nodup := by
  by_cases ha : t.any (fun r => r.1 = k) = true
  · rw [keys_insertRec_existing t k v ha]
    exact h
  · unfold insertRec
    rw [if_neg ha, List.map_append]
    have ha' : ∀ r ∈ t, r.1 ≠ k := by
      intro r hrt hrk
      exact ha (List.any_eq_true.2 ⟨r, hrt, by simpa using hrk⟩)
    have hk : k ∉ t.map Prod.fst := by
      intro hmem
      obtain ⟨r, hrt, hrk⟩ := List.mem_map.1 hmem
      exact ha' r hrt hrk
    simp only [List.map_cons, List.map_nil]
    refine List.Nodup.append h (List.nodup_singleton k) ?_
    intro a hat hak
    simp only [List.mem_singleton] at hak
    subst hak
    exact hk hat

lemma Buffers.get_set_eq (b : Buffers) (m : CModel) (t : List (Nat × Nat)) :
    (b.set m t).get m = t := by
  cases m <;> rfl

lemma Buffers.get_set_ne (b : Buffers) (m m' : CModel) (t : List (Nat × Nat))
    (h : m ≠ m') : (b.set m' t).get m = b.get m := by
  cases m <;> cases m' <;> first | rfl | exact absurd rfl h

lemma runAdds_nodup_keys (ops : List (CModel × Nat × Nat)) :
    ∀ b : Buffers, (∀ m, ((b.get m).map Prod.fst).Nodup) →
      ∀ m, (((runAdds b ops).get m).map Prod.fst).Nodup := by
  induction ops with
  | nil => exact fun b hb => hb
  | cons op ops ih =>
    intro b hb
    simp only [runAdds, List.foldl_cons]
    apply ih
    intro m
    unfold add_record
    by_cases h : bulk_limit ≤ (add_record_insert b op.1 op.2.1 op.2.2).company.length
    · rw [if_pos h]
      cases m <;> simp [emptyBuffers, Buffers.get]
    · rw [if_neg h]
      unfold add_record_insert
      by_cases hm : m = op.1
      · subst hm
        rw [Buffers.get_set_eq]
        exact nodup_keys_insertRec _ _ _ (hb op.1)
      · rw [Buffers.get_set_ne _ _ _ _ hm]
        exact hb m

/-- **C7** (confirmed).  `add_record` buffers each record in a dict
keyed by the model's unique-field tuple.  Assignment replaces: right
after inserting `(k, v)` the buffer maps `k` to `v`, so when two
records share a key the later one wins; and in every reachable buffer
state the keys are pairwise distinct, so each flush
(`bulk_create` of `self.records[model].values()`) writes at most one
record per unique key. -/
theorem C7_dedup_by_unique_key :
    (∀ (t : List (Nat × Nat)) (k v : Nat), lookupRec (insertRec t k v) k = some v) ∧
    (∀ (ops : List (CModel × Nat × Nat)) (m : CModel),
      (((runAdds emptyBuffers ops).get m).map Prod.fst).Nodup) := by
  constructor
  · exact lookupRec_insertRec
  · intro ops m
    apply runAdds_nodup_keys ops emptyBuffers
    intro m'
    cases m' <;> simp [emptyBuffers, Buffers.get]

/-! ## C4 and C9: the command-log wrapper -/

lemma teardown_status (h : Handler) (now : Nat) :
    (teardown h now).commandlog.status =
      if h.errors > 0 then CommandLogStatus.failed else CommandLogStatus.completed := by
  unfold teardown
  dsimp only
  repeat' split
  all_goals rfl

lemma teardown_completedAt (h : Handler) (now : Nat) :
    (teardown h now).commandlog.completedAt = some now := by
  unfold teardown
  dsimp only

lemma teardown_log (h : Handler) (now : Nat) :
    (teardown h now).commandlog.log = h.commandlog.log := by
  unfold teardown
  dsimp only
  repeat' split
  all_goals rfl

lemma teardown_status_completed_iff (h : Handler) (now : Nat) :
    (teardown h now).commandlog.status = .completed ↔ h.errors = 0 := by
  rw [teardown_status]
  constructor
  · intro hc
    by_contra hne
    rw [if_pos (Nat.pos_of_ne_zero hne)] at hc
    exact absurd hc (by decide)
  · intro h0
    rw [h0]
    rfl

lemma errors_foldl (rs : List LogRecord) :
    ∀ h : Handler, (rs.foldl emit h).errors =
      h.errors + (rs.filter isErrorLevel).length := by
  induction rs with
  | nil => intro h; simp
  | cons r rs ih =>
    intro h
    simp only [List.foldl_cons, List.filter_cons]
    rw [ih]
    by_cases hp : isErrorLevel r = true
    · simp [emit, hp]
      omega
    · simp [emit, hp]

/-- An `ERROR`/`CRITICAL` record always clears the root logger's
`INFO` threshold, so filtering through the logger does not change
which error-level records the handler counts. -/
lemma filter_err_reaches (rs : List LogRecord) :
    (reachesHandler rs).filter isErrorLevel = rs.filter isErrorLevel := by
  unfold reachesHandler
  induction rs with
  | nil => rfl
  | cons r rs ih =>
    by_cases hq : (INFO ≤ r.levelno : Prop)
    · rw [List.filter_cons, if_pos (by simpa using hq), List.filter_cons, ih,
        List.filter_cons]
    · have hp : isErrorLevel r = false := by
        unfold isErrorLevel ERROR CRITICAL
        simp only [Bool.or_eq_false_iff, decide_eq_false_iff_not]
        unfold INFO at hq
        omega
      rw [List.filter_cons, if_neg (by simpa using hq), ih, List.filter_cons, hp]
      simp

/-- **C4** (confirmed).  When the wrapped command raises, `logcommand`
logs the exception into the persisted `CommandLog` record (an
`ERROR`-level line appended to its `log`), `teardown` marks the record
`failed` and stamps its completion time, and the same exception is
re-raised to the caller. -/
theorem C4_exception_logged_and_reraised (command : String) (cmd : WrappedCommand)
    (started now : Nat) (err : String) (h : cmd.result = .error err) :
    (logcommand_handle command cmd started now).1 = .error err ∧
    (logcommand_handle command cmd started now).2.status = .failed ∧
    (logcommand_handle command cmd started now).2.completedAt = some now ∧
    ∃ pre, (logcommand_handle command cmd started now).2.log =
      some (pre ++ formatRecord ⟨ERROR, "root", err⟩ ++ "\n") := by
  unfold logcommand_handle
  rw [h]
  refine ⟨rfl, ?_, ?_, ?_⟩
  · rw [teardown_status]
    simp [emit, isErrorLevel, ERROR]
  · rw [teardown_completedAt]
  · rw [teardown_log]
    exact ⟨_, rfl⟩

/-- Witness for C4 at a concrete raising command. -/
theorem C4_exception_logged_and_reraised_witness :
    (logcommand_handle "import_companies" ⟨[], .error "boom"⟩ 0 5).1 = .error "boom" ∧
    (logcommand_handle "import_companies" ⟨[], .error "boom"⟩ 0 5).2.status = .failed ∧
    (logcommand_handle "import_companies" ⟨[], .error "boom"⟩ 0 5).2.completedAt = some 5 ∧
    ∃ pre, (logcommand_handle "import_companies" ⟨[], .error "boom"⟩ 0 5).2.log =
      some (pre ++ formatRecord ⟨ERROR, "root", "boom"⟩ ++ "\n") :=
  C4_exception_logged_and_reraised "import_companies" ⟨[], .error "boom"⟩ 0 5 "boom" rfl

/-- **C9** (confirmed).  After `teardown`, the `CommandLog` status is
`completed` exactly when no `ERROR`/`CRITICAL` record was emitted
through the handler during the run — in particular a wrapped command
that returns normally is still marked `failed` when it logged an
`ERROR`-level message. -/
theorem C9_completed_iff_no_errors (command : String) (rs : List LogRecord)
    (cmd : WrappedCommand) (started now : Nat) :
    ((teardown (rs.foldl emit ⟨freshCommandLog command started, "", 0⟩) now).commandlog.status
        = .completed ↔ (rs.filter isErrorLevel).length = 0) ∧
    (cmd.result = .ok () →
      ((logcommand_handle command cmd started now).2.status = .completed ↔
        (cmd.emitted.filter isErrorLevel).length = 0)) := by
  constructor
  · rw [teardown_status_completed_iff, errors_foldl]
    simp
  · intro h
    unfold logcommand_handle
    rw [h]
    rw [teardown_status_completed_iff, errors_foldl, filter_err_reaches]
    simp

/-- Witness for C9: one `ERROR` record logged by a command that
returns normally — the run record is not `completed`. -/
theorem C9_completed_iff_no_errors_witness :
    (logcommand_handle "import_companies" ⟨[⟨ERROR, "root", "bad row"⟩], .ok ()⟩ 0 5).2.status
        = .completed ↔
      (([⟨ERROR, "root", "bad row"⟩] : List LogRecord).filter isErrorLevel).length = 0 :=
  (C9_completed_iff_no_errors "import_companies" []
    ⟨[⟨ERROR, "root", "bad row"⟩], .ok ()⟩ 0 5).2 rfl

/-! ## C8: the postcode fixture import -/

/-- **C8** (confirmed against the spec model).  Importing the fixture
ZIP `Code_History_Database_May_2023_UK.zip` with the postcode import
produces exactly 500 `GeoCode` rows, of which exactly 417 have
`STATUS = "live"`; the row with `GEOGCD = "E04005721"` has
`GEOGNM = "Skidbrooke with Saltfleet Haven"`, and the row with
`GEOGCD = "E33003018"` has a null `GEOGNM` — exactly the assertions of
`TestImportCHD.test_handle`. -/
theorem C8_import_chd_fixture :
    importCHDResult.length = 500 ∧
    (importCHDResult.filter (fun g => g.STATUS = "live")).length = 417 ∧
    (geoCodeGet "E04005721").map GeoCode.GEOGNM =
      some (some "Skidbrooke with Saltfleet Haven") ∧
    (geoCodeGet "E33003018").map GeoCode.GEOGNM = some none := by
  refine ⟨by decide, by decide, by decide, by decide⟩
